import Mathlib

/-!
# Verification of the rag-studies core against its specification

This file gives a shallow embedding, in Lean 4, of the three core pieces of
the repository that the specification describes:

* `apps/interactive-chat/search_engine.py` — the keyword relevance ranker and
  context assembler (`SimpleSearchEngine`);
* `src/capacities/code_review/reviewer.py` — the structured-extraction parser
  over generator output (`CodeReviewCapacity._parse_issues`,
  `_parse_suggestions`, `_parse_summary`);
* `src/core/engine.py` — the pipeline controller (`RAGEngine`).

Python strings are modelled as Lean `String`s operated on through their
`List Char` code-point sequences; `str.lower`, `str.strip`, `str.split`,
`str.count` and the specific regular expressions used by the reviewer are
translated into executable Lean functions that reproduce the semantics of the
source patterns (leftmost match, non-greedy section bodies, greedy character
classes).  Wall-clock fields (`elapsed_time`) and console printing are outside
the embedding.  External collaborators of `RAGEngine` (loader, vector store,
LLM) are passed in as explicit function arguments whose fallible calls return
`Except`, mirroring Python exceptions caught by the engine.
-/

namespace RagStudies

/-! ## Python string primitives -/

/-- Lowercasing of one character (`str.lower`), for the ASCII and Latin-1 ranges
(Python lowercases `À`–`Þ` to `à`–`þ`, skipping `×`). -/
def lowerChar (c : Char) : Char :=
  if 'A' ≤ c ∧ c ≤ 'Z' then Char.ofNat (c.toNat + 32)
  else if 0xC0 ≤ c.toNat ∧ c.toNat ≤ 0xDE ∧ c.toNat ≠ 0xD7 then Char.ofNat (c.toNat + 32)
  else c

/-- Python `str.lower` over a code-point list. -/
def lowerL (l : List Char) : List Char := l.map lowerChar

/-- Python `str.lower`. -/
def pyLower (s : String) : String := String.mk (lowerL s.data)

/-- Python `str` whitespace (the characters recognized by `str.split()` and
`str.strip()`), restricted to the Latin-1 range. -/
def isPySpace (c : Char) : Bool :=
  c = ' ' ∨ c = '\t' ∨ c = '\n' ∨ c = '\r' ∨ c.toNat = 0x0b ∨ c.toNat = 0x0c ∨
  (0x1c ≤ c.toNat ∧ c.toNat ≤ 0x1f) ∨ c.toNat = 0x85 ∨ c.toNat = 0xa0

/-- Python `str.strip()` on a code-point list. -/
def pyStrip (l : List Char) : List Char :=
  ((l.dropWhile isPySpace).reverse.dropWhile isPySpace).reverse

/-- Python `str.split()` (split on whitespace runs, dropping empty fields);
`acc` holds the current word reversed. -/
def splitWsAux (acc : List Char) : List Char → List (List Char)
  | [] => if acc.isEmpty then [] else [acc.reverse]
  | c :: t =>
    if isPySpace c then
      if acc.isEmpty then splitWsAux [] t else acc.reverse :: splitWsAux [] t
    else splitWsAux (c :: acc) t

/-- Python `str.split()`. -/
def splitWs (l : List Char) : List (List Char) := splitWsAux [] l

/-- Python `sep.join(parts)` (string join semantics). -/
def joinSep (sep : String) : List String → String
  | [] => ""
  | [x] => x
  | x :: xs => x ++ sep ++ joinSep sep xs

/-- Collapse internal whitespace to single spaces (`' '.join(s.split())`). -/
def collapseWs (l : List Char) : String :=
  joinSep " " ((splitWs l).map String.mk)

/-- Case-sensitive "the first list is a prefix of the second". -/
def startsWithL : List Char → List Char → Bool
  | [], _ => true
  | _ :: _, [] => false
  | p :: ps, c :: t => p = c && startsWithL ps t

/-- Case-insensitive prefix test: the pattern `pat` is given lowercased, the
text is lowercased character by character during the comparison. -/
def startsWithCI : List Char → List Char → Bool
  | [], _ => true
  | _ :: _, [] => false
  | p :: ps, c :: t => p = lowerChar c && startsWithCI ps t

/-- Python `needle in haystack` (substring test). -/
def containsSub (w : List Char) : List Char → Bool
  | [] => w.isEmpty
  | c :: t => startsWithL w (c :: t) || containsSub w t

/-- Python `haystack.count(needle)` for a nonempty needle: non-overlapping
occurrences, scanning left to right.  `fuel` bounds the recursion and is
instantiated with the haystack length. -/
def countSubAux (w : List Char) : Nat → List Char → Nat
  | 0, _ => 0
  | _ + 1, [] => 0
  | fuel + 1, c :: t =>
    if startsWithL w (c :: t) then 1 + countSubAux w fuel ((c :: t).drop w.length)
    else countSubAux w fuel t

/-- Python `haystack.count(needle)`; Python returns `len + 1` for the empty needle. -/
def countSub (w l : List Char) : Nat :=
  if w.isEmpty then l.length + 1 else countSubAux w l.length l

/-- Decimal rendering of a natural number (Python `str(i)` inside f-strings). -/
def natToStrAux : Nat → Nat → List Char
  | 0, n => [Char.ofNat (48 + n % 10)]
  | fuel + 1, n =>
    if n < 10 then [Char.ofNat (48 + n)]
    else natToStrAux fuel (n / 10) ++ [Char.ofNat (48 + n % 10)]

/-- Python `str(i)` for a natural number. -/
def natToStr (n : Nat) : String := String.mk (natToStrAux n n)

/-! ## The relevance ranker (`apps/interactive-chat/search_engine.py`)

A langchain `Document` is modelled by its `page_content` together with the
metadata entries the source reads: `source` (absent modelled as `none`),
`file_type` and `file_size`. -/

structure Document where
  page_content : String
  source : Option String
  file_type : Option String
  file_size : Nat
deriving DecidableEq, Repr

/-- The tuple `(doc, score, file_path)` built inside `find_relevant_context`. -/
structure Scored where
  doc : Document
  score : Nat
  file : String
deriving DecidableEq, Repr

/-- One entry of the `sources` list built by `find_relevant_context`. -/
structure SourceInfo where
  index : Nat
  file : String
  score : Nat
  lines : Nat
  preview : String
deriving DecidableEq, Repr

/-- The table `SimpleSearchEngine.keyword_mapping` (insertion order preserved). -/
def keyword_mapping : List (String × List String) :=
  [("loader", ["loader", "load", "document", "python", "carregar"]),
   ("llm", ["llm", "model", "gemini", "ollama", "pergunta", "resposta", "ask"]),
   ("vector", ["vector", "store", "chroma", "embedding", "retriever"]),
   ("engine", ["engine", "rag", "pipeline", "setup"]),
   ("base", ["base", "abstract", "interface", "herdar"]),
   ("config", ["config", "configuration", "yaml", "settings"]),
   ("factory", ["factory", "get_", "create", "build"])]

/-- Scoring, from `SimpleSearchEngine._calculate_relevance_score`: word-occurrence points,
topic/file-path bonuses, a size bonus and structural-marker counts. -/
def calculate_relevance_score (question_lower : String) (doc : Document) : Nat :=
  let content_lower := lowerL doc.page_content.data
  let file_path := lowerL (doc.source.getD "").data
  let wordScore :=
    ((splitWs question_lower.data).filter (fun w => 2 < w.length)).foldl
      (fun acc w => acc + countSub w content_lower * 2) 0
  let topicScore :=
    keyword_mapping.foldl
      (fun acc kv =>
        if kv.2.any (fun kw => containsSub kw.data question_lower.data) then
          if containsSub kv.1.data file_path then acc + 15 else acc
        else acc) 0
  let sizeScore := content_lower.length / 1000
  let structScore :=
    (["class ", "def ", "import ", "from "] : List String).foldl
      (fun acc pat => acc + countSub pat.data content_lower) 0
  wordScore + topicScore + sizeScore + structScore

/-- Preview, from `SimpleSearchEngine._get_preview`: the content itself when short enough,
else the first `max_chars` characters with `"..."` appended. -/
def get_preview (content : String) (max_chars : Nat) : String :=
  if content.length ≤ max_chars then content
  else String.mk (content.data.take max_chars) ++ "..."

/-- The per-document scored list built by the loop in
`find_relevant_context` (before sorting). -/
def docScores (question_lower : String) (docs : List Document) : List Scored :=
  docs.map (fun d =>
    { doc := d, score := calculate_relevance_score question_lower d,
      file := d.source.getD "N/A" })

/-- One step of Python's stable sort `list.sort(key=score, reverse=True)`:
insert `a` after every already-placed element of strictly greater score, and
before the first element of less-or-equal score. -/
def insertScored (a : Scored) : List Scored → List Scored
  | [] => [a]
  | b :: l => if a.score < b.score then b :: insertScored a l else a :: b :: l

/-- Stable descending sort by score (`doc_scores.sort(key=λx: x[1],
reverse=True)`); stable insertion sort computes the same list as Python's
stable Timsort under the same key. -/
def sortScoresDesc : List Scored → List Scored
  | [] => []
  | x :: xs => insertScored x (sortScoresDesc xs)

/-- Python `len(content.split(chr(10)))`, the line count of the content. -/
def lineCount (content : String) : Nat := content.data.count '\n' + 1

/-- The output loop of `find_relevant_context`: walk the top documents with a
1-based index, and keep a context part and a source entry exactly for the
documents of positive score. -/
def buildOutputs : Nat → List Scored → List String × List SourceInfo
  | _, [] => ([], [])
  | i, s :: rest =>
    let tail := buildOutputs (i + 1) rest
    if 0 < s.score then
      (("[ARQUIVO " ++ natToStr i ++ ": " ++ s.file ++ "]\n" ++ s.doc.page_content)
         :: tail.1,
       { index := i, file := s.file, score := s.score,
         lines := lineCount s.doc.page_content,
         preview := get_preview s.doc.page_content 150 } :: tail.2)
    else tail

/-- The method `SimpleSearchEngine.find_relevant_context`. -/
def find_relevant_context (question : String) (max_docs : Nat)
    (docs : List Document) : String × List SourceInfo :=
  if docs.isEmpty then ("", [])
  else
    let question_lower := pyLower question
    let sorted := sortScoresDesc (docScores question_lower docs)
    let top := sorted.take max_docs
    let outs := buildOutputs 1 top
    (joinSep "\n\n" outs.1, outs.2)

/-! ## The response extractor (`src/capacities/code_review/reviewer.py`)

The reviewer locates header-delimited sections with regexes of the shape
`HEADER:(.+?)(?:TERM₁|TERM₂|…|$)` under `re.DOTALL | re.IGNORECASE`, and then
runs three per-line patterns over the section body with `re.finditer` (no
flags).  Those regexes are deterministic (each greedy character class is
followed by a character it cannot contain), so they are translated into
direct functional scanners below. -/

/-- The dataclass `CodeIssue`. -/
structure CodeIssue where
  category : String
  description : String
  line_number : Option Nat
  severity : String
deriving DecidableEq, Repr

/-- The dataclass `CodeSuggestion`. -/
structure CodeSuggestion where
  category : String
  description : String
  line_number : Option Nat
  impact : String
deriving DecidableEq, Repr

/-- The raw capture groups of one per-line pattern match. -/
structure RawMatch where
  cat : List Char
  desc : List Char
  num : Option Nat
deriving DecidableEq, Repr

/-- Leftmost case-insensitive occurrence of `pat`: the suffix just after it,
or `none`.  Models the literal-header part of the section regexes. -/
def headerSplit (pat : List Char) : List Char → Option (List Char)
  | [] => if pat.isEmpty then some [] else none
  | c :: t =>
    if startsWithCI pat (c :: t) then some ((c :: t).drop pat.length)
    else headerSplit pat t

/-- The non-greedy continuation `(.+?)(?:TERM…|$)` after the first body
character: stop at the first case-insensitive occurrence of a terminator
word, at the end of the text, or (as `$` without `re.MULTILINE`) just before
a final newline. -/
def cutBody (terms : List (List Char)) : List Char → List Char
  | [] => []
  | ['\n'] => []
  | c :: t =>
    if terms.any (fun w => startsWithCI w (c :: t)) then []
    else c :: cutBody terms t

/-- Body of the section `HEADER:(.+?)(?:TERMS|$)` (DOTALL, IGNORECASE):
`none` when the header does not occur, or occurs with nothing after it
(`.+?` needs at least one character). -/
def sectionBody (header : List Char) (terms : List (List Char))
    (l : List Char) : Option (List Char) :=
  match headerSplit header l with
  | none => none
  | some [] => none
  | some (c :: t) => some (c :: cutBody terms t)

/-- Integer value of a decimal digit string (`int(match.group(3))`). -/
def natOfDigits (ds : List Char) : Nat :=
  ds.foldl (fun a c => a * 10 + (c.toNat - 48)) 0

/-- The optional trailer `\(KW(\d+)\)` of the line patterns (with `KW` being
`linha ` or `L`): consumed when it matches right after the description run,
skipped otherwise. -/
def tryParen (kw : List Char) (l : List Char) : Option (Nat × List Char) :=
  match l with
  | '(' :: t =>
    if startsWithL kw t then
      let t2 := t.drop kw.length
      let ds := t2.takeWhile Char.isDigit
      if ds.isEmpty then none
      else
        match t2.dropWhile Char.isDigit with
        | ')' :: r => some (natOfDigits ds, r)
        | _ => none
    else none
  | _ => none

/-- Shared tail of the three line patterns: the description run
`([^(\n]+)` followed by the optional line-number trailer. -/
def finishMatch (cat : List Char) (kw : List Char) (rest : List Char) :
    Option (RawMatch × List Char) :=
  let desc := rest.takeWhile (fun c => ¬(c = '(' ∨ c = '\n'))
  if desc.isEmpty then none
  else
    match tryParen kw (rest.dropWhile (fun c => ¬(c = '(' ∨ c = '\n'))) with
    | some (n, r) => some (⟨cat, desc, some n⟩, r)
    | none => some (⟨cat, desc, none⟩, rest.dropWhile (fun c => ¬(c = '(' ∨ c = '\n')))

/-- Pattern `- \[([^\]]+)\] ([^(\n]+)(?:\(linha (\d+)\))?` at the head of
`l`. -/
def matchBracketP (l : List Char) : Option (RawMatch × List Char) :=
  match l with
  | '-' :: ' ' :: '[' :: rest =>
    let cat := rest.takeWhile (fun c => c ≠ ']')
    if cat.isEmpty then none
    else
      match rest.dropWhile (fun c => c ≠ ']') with
      | ']' :: ' ' :: rest2 => finishMatch cat "linha ".data rest2
      | _ => none
  | _ => none

/-- The character class `[A-Z]` of the line patterns. -/
def isUpperAscii (c : Char) : Bool := 'A' ≤ c ∧ c ≤ 'Z'

/-- Word characters `\w` restricted to the Latin-1 range (Python `re` over
`str`). -/
def isWordChar (c : Char) : Bool :=
  c.isAlphanum ∨ c = '_' ∨ c.toNat = 0xAA ∨ c.toNat = 0xB5 ∨ c.toNat = 0xBA ∨
  (0xC0 ≤ c.toNat ∧ c.toNat ≤ 0xFF ∧ c.toNat ≠ 0xD7 ∧ c.toNat ≠ 0xF7)

/-- The character class `[\w\s]`. -/
def isWordSpace (c : Char) : Bool := isWordChar c || isPySpace c

/-- Shared structure of patterns `- ([A-Z][\w\s]+): …` and
`\* ([A-Z][\w\s]+): …`: the greedy `[\w\s]+` run must be followed by the
literal `: ` (the run cannot contain `:`, so no backtracking arises). -/
def matchCatColon (kw : List Char) (c : Char) (rest : List Char) :
    Option (RawMatch × List Char) :=
  if isUpperAscii c then
    let run := rest.takeWhile isWordSpace
    if run.isEmpty then none
    else
      match rest.dropWhile isWordSpace with
      | ':' :: ' ' :: rest2 => finishMatch (c :: run) kw rest2
      | _ => none
  else none

/-- Pattern `- ([A-Z][\w\s]+): ([^(\n]+)(?:\(linha (\d+)\))?`. -/
def matchDashP (l : List Char) : Option (RawMatch × List Char) :=
  match l with
  | '-' :: ' ' :: c :: rest => matchCatColon "linha ".data c rest
  | _ => none

/-- Pattern `\* ([A-Z][\w\s]+): ([^(\n]+)(?:\(L(\d+)\))?`. -/
def matchStarP (l : List Char) : Option (RawMatch × List Char) :=
  match l with
  | '*' :: ' ' :: c :: rest => matchCatColon "L".data c rest
  | _ => none

/-- Python `re.finditer`: scan left to right, emit non-overlapping matches,
advancing one character after a failed attempt.  `fuel` is instantiated with
the length of the scanned text (every successful match consumes at least one
character). -/
def scanMatches (m : List Char → Option (RawMatch × List Char)) :
    Nat → List Char → List RawMatch
  | 0, _ => []
  | _ + 1, [] => []
  | fuel + 1, c :: t =>
    match m (c :: t) with
    | some (r, rest) => r :: scanMatches m fuel rest
    | none => scanMatches m fuel t

/-- The severity watchlist of `_parse_issues` (verbatim from the source). -/
def issue_severity_words : List String :=
  ["crítico", "segurança", "vulnerável", "eval", "sql", "senha", "password",
   "token", "secret"]

/-- The impact watchlist of `_parse_suggestions` (verbatim from the source). -/
def suggestion_impact_words : List String :=
  ["performance", "segurança", "arquitetura", "crítico"]

/-- Severity derivation: `"high" if any(word in description.lower() for word in …)
else "medium"`. -/
def severity_of (description : String) : String :=
  if issue_severity_words.any (fun w => containsSub w.data (lowerL description.data))
  then "high" else "medium"

/-- The analogous impact derivation of `_parse_suggestions`. -/
def impact_of (description : String) : String :=
  if suggestion_impact_words.any (fun w => containsSub w.data (lowerL description.data))
  then "high" else "medium"

/-- Build one `CodeIssue` from raw capture groups (groups 1 and 2 are
stripped; severity is derived from the stripped description). -/
def mkIssue (r : RawMatch) : CodeIssue :=
  let d := String.mk (pyStrip r.desc)
  { category := String.mk (pyStrip r.cat), description := d,
    line_number := r.num, severity := severity_of d }

/-- Build one `CodeSuggestion` from raw capture groups. -/
def mkSuggestion (r : RawMatch) : CodeSuggestion :=
  let d := String.mk (pyStrip r.desc)
  { category := String.mk (pyStrip r.cat), description := d,
    line_number := r.num, impact := impact_of d }

/-- The raw matches of the three line patterns over a section body, in the
order the source accumulates them (all matches of the first pattern, then of
the second, then of the third). -/
def rawLineMatches (body : List Char) : List RawMatch :=
  scanMatches matchBracketP body.length body ++
  scanMatches matchDashP body.length body ++
  scanMatches matchStarP body.length body

/-- The section regex of `_parse_issues`:
`PROBLEMAS ENCONTRADOS:(.+?)(?:SUGESTÕES|PONTOS|RESUMO|$)`. -/
def issuesBody (text : String) : Option (List Char) :=
  sectionBody "problemas encontrados:".data
    ["sugestões".data, "pontos".data, "resumo".data] text.data

/-- The section regex of `_parse_suggestions`:
`SUGESTÕES DE MELHORIA:(.+?)(?:PONTOS|RESUMO|$)`. -/
def suggestionsBody (text : String) : Option (List Char) :=
  sectionBody "sugestões de melhoria:".data
    ["pontos".data, "resumo".data] text.data

/-- The section regex of `_parse_summary`: `RESUMO:(.+?)$`. -/
def summaryBody (text : String) : Option (List Char) :=
  sectionBody "resumo:".data [] text.data

/-- The method `CodeReviewCapacity._parse_issues`. -/
def parse_issues (text : String) : List CodeIssue :=
  match issuesBody text with
  | none => []
  | some body => (rawLineMatches body).map mkIssue

/-- The method `CodeReviewCapacity._parse_suggestions`. -/
def parse_suggestions (text : String) : List CodeSuggestion :=
  match suggestionsBody text with
  | none => []
  | some body => (rawLineMatches body).map mkSuggestion

/-- The default summary placeholder of `_parse_summary`. -/
def defaultSummary : String := "Análise de código concluída."

/-- The method `CodeReviewCapacity._parse_summary`: the stripped, whitespace-collapsed
summary body, or the placeholder when the section is absent. -/
def parse_summary (text : String) : String :=
  match summaryBody text with
  | some body => collapseWs (pyStrip body)
  | none => defaultSummary

/-! ## The pipeline controller (`src/core/engine.py`)

`RAGEngine` owns three mutable attributes: `retriever` (initially `None`),
`is_indexed` (initially `False`) and `retriever_config` (a `dict`).  The
collaborators are passed to each operation as explicit arguments: the
outcome of `loader.load`, the functions `vector_store.add_documents`,
`vector_store.get_retriever`, `retriever.invoke`, `llm.ask` and
`vector_store.delete_collection`, each returning `Except` for a possible
Python exception.  The retriever object type `R` is abstract. -/

/-- A configuration value (`"similarity"`, `4`, `0.5`, …). -/
inductive ConfigVal where
  | str : String → ConfigVal
  | int : Int → ConfigVal
  | rat : ℚ → ConfigVal
deriving DecidableEq, Repr

/-- A Python `dict` of retriever settings, as an ordered key-value list. -/
abbrev Config := List (String × ConfigVal)

/-- Python `dict` lookup (first binding of the key). -/
def cfgGet (k : String) : Config → Option ConfigVal
  | [] => none
  | (k', v) :: t => if k' = k then some v else cfgGet k t

/-- Python `dict.update`: existing keys keep their place and take the new
value when supplied; keys new to the dict are appended. -/
def dictUpdate (base upd : Config) : Config :=
  base.map (fun kv => (kv.1, (cfgGet kv.1 upd).getD kv.2)) ++
  upd.filter (fun kv => (cfgGet kv.1 base).isNone)

/-- The default `retriever_config` of `RAGEngine.__init__`. -/
def default_retriever_config : Config :=
  [("search_type", .str "similarity"), ("k", .int 4),
   ("score_threshold", .rat (1 / 2))]

/-- The mutable state of a `RAGEngine` instance; `R` is the (abstract) type
of retriever objects produced by `vector_store.get_retriever`. -/
structure RAGEngine (R : Type) where
  retriever : Option R
  is_indexed : Bool
  retriever_config : Config
deriving DecidableEq, Repr

/-- The constructor `RAGEngine.__init__`: no retriever, not indexed, and the supplied
configuration — or the default when the argument is `None` or an empty dict
(Python `retriever_config or {…}`). -/
def initEngine (R : Type) (cfg : Option Config) : RAGEngine R :=
  { retriever := none, is_indexed := false,
    retriever_config :=
      match cfg with
      | none => default_retriever_config
      | some c => if c.isEmpty then default_retriever_config else c }

/-- The statistics dict returned by `setup_pipeline` (wall-clock
`elapsed_time` omitted). -/
structure SetupStats where
  documents_loaded : Nat
  documents_indexed : Nat
  status : String
  error : Option String
  retriever_config : Option Config
deriving DecidableEq, Repr

/-- The error statistics dict of `setup_pipeline`'s `except` branch. -/
def errStats (e : String) : SetupStats :=
  { documents_loaded := 0, documents_indexed := 0, status := "error",
    error := some ("Erro ao configurar pipeline: " ++ e),
    retriever_config := none }

/-- The method `RAGEngine.setup_pipeline`: load, check non-emptiness, index, build the
retriever, read `retriever_config['search_type']` (a possible `KeyError`
after the retriever was already assigned), then set `is_indexed`.  Returns
the state as mutated so far together with the statistics dict. -/
def setup_pipeline {R : Type} (load : Except String (List Document))
    (addDocuments : List Document → Except String (List String))
    (getRetriever : Config → Except String R)
    (s : RAGEngine R) : RAGEngine R × SetupStats :=
  match load with
  | .error e => (s, errStats e)
  | .ok docs =>
    if docs.isEmpty then (s, errStats "Nenhum documento foi carregado")
    else
      match addDocuments docs with
      | .error e => (s, errStats e)
      | .ok doc_ids =>
        match getRetriever s.retriever_config with
        | .error e => (s, errStats e)
        | .ok r =>
          let s1 : RAGEngine R := { s with retriever := some r }
          match cfgGet "search_type" s1.retriever_config with
          | none => (s1, errStats ("KeyError: search_type"))
          | some _ =>
            let s2 : RAGEngine R := { s1 with is_indexed := true }
            (s2, { documents_loaded := docs.length,
                   documents_indexed := doc_ids.length,
                   status := "success", error := none,
                   retriever_config := some s2.retriever_config })

/-- One entry of the `sources` list built by `RAGEngine.ask`. -/
structure AskSource where
  index : Nat
  source : String
  file_type : String
  file_size : Nat
  content_preview : String
deriving DecidableEq, Repr

/-- The result dict of `RAGEngine.ask` (wall-clock `elapsed_time` omitted;
keys present only on some branches are `Option`-valued). -/
structure AskResult where
  answer : String
  question : String
  context : String
  sources : List AskSource
  retrieved_docs_count : Option Nat
  status : String
  llm_model : Option String
  error : Option String
deriving DecidableEq, Repr

/-- The early-return dict of `ask` when the engine is not indexed. -/
def notIndexedResult (question : String) : AskResult :=
  { answer := "Sistema não está indexado. Execute setup_pipeline() primeiro.",
    question := question, context := "", sources := [],
    retrieved_docs_count := none, status := "error", llm_model := none,
    error := none }

/-- The `except` branch dict of `ask`. -/
def askErrResult (question : String) (e : String) : AskResult :=
  { answer := "Erro interno: Erro ao processar pergunta: " ++ e,
    question := question, context := "", sources := [],
    retrieved_docs_count := none, status := "error", llm_model := none,
    error := some ("Erro ao processar pergunta: " ++ e) }

/-- The source-info dict `ask` builds per retrieved document
(`content_preview` truncates at 150 characters with `"..."`). -/
def askSourceInfo (i : Nat) (d : Document) : AskSource :=
  { index := i, source := d.source.getD "N/A",
    file_type := d.file_type.getD "N/A", file_size := d.file_size,
    content_preview :=
      if 150 < d.page_content.length
      then String.mk (d.page_content.data.take 150) ++ "..."
      else d.page_content }

/-- The context/sources loop of `ask` over the retrieved documents,
enumerated from 1. -/
def askOutputs (include_sources : Bool) : Nat → List Document →
    List String × List AskSource
  | _, [] => ([], [])
  | i, d :: rest =>
    let tail := askOutputs include_sources (i + 1) rest
    (("[DOCUMENTO " ++ natToStr i ++ "]\n" ++ d.page_content) :: tail.1,
     if include_sources then askSourceInfo i d :: tail.2 else tail.2)

/-- The method `RAGEngine.ask`.  When the engine is not indexed the typed error dict is
returned before any collaborator is consulted; otherwise the retriever
(either a temporary one built from `retriever_kwargs` or the stored one) is
invoked, the context assembled, and the LLM asked, any exception being
converted into the `except`-branch dict. -/
def engineAsk {R : Type} (getRetriever : Config → R)
    (invoke : R → String → Except String (List Document))
    (llm_model : String) (llm_ask : String → String → Except String String)
    (s : RAGEngine R) (question : String) (include_sources : Bool)
    (retriever_kwargs : Option Config) : AskResult :=
  if s.is_indexed = false then notIndexedResult question
  else
    let retrieved : Except String (List Document) :=
      match retriever_kwargs with
      | some kw => invoke (getRetriever kw) question
      | none =>
        match s.retriever with
        | none => .error ("AttributeError: NoneType object has no attribute invoke")
        | some r => invoke r question
    match retrieved with
    | .error e => askErrResult question e
    | .ok docs =>
      let outs := askOutputs include_sources 1 docs
      let full_context := joinSep "\n\n" outs.1
      match llm_ask question full_context with
      | .error e => askErrResult question e
      | .ok answer =>
        { answer := answer, question := question, context := full_context,
          sources := if include_sources then outs.2 else [],
          retrieved_docs_count := some docs.length, status := "success",
          llm_model := some llm_model, error := none }

/-- The method `RAGEngine.update_retriever_config`: merge the keyword arguments into
the stored configuration; when indexed, immediately rebuild the retriever
from the merged configuration. -/
def update_retriever_config {R : Type} (getRetriever : Config → R)
    (s : RAGEngine R) (kwargs : Config) : RAGEngine R :=
  let cfg := dictUpdate s.retriever_config kwargs
  if s.is_indexed then
    { retriever := some (getRetriever cfg), is_indexed := s.is_indexed,
      retriever_config := cfg }
  else { s with retriever_config := cfg }

/-- The method `RAGEngine.clear_index`: drop the retriever and the indexed flag — but
only when `vector_store.delete_collection` did not raise (an exception skips
both assignments). -/
def clear_index {R : Type} (deleteCollection : Except String Unit)
    (s : RAGEngine R) : RAGEngine R :=
  match deleteCollection with
  | .ok _ => { s with retriever := none, is_indexed := false }
  | .error _ => s

/-! ## Theorems: the response extractor (claims C1, C5, C6) -/

/-- Helper for C6: `severity_of` returns `"high"` exactly on a watchlist hit
and never anything besides `"high"`/`"medium"`. -/
theorem severity_of_spec (d : String) :
    (severity_of d = "high" ↔
      issue_severity_words.any
        (fun w => containsSub w.data (lowerL d.data)) = true) ∧
    (severity_of d = "high" ∨ severity_of d = "medium") := by
  unfold severity_of
  by_cases h : issue_severity_words.any
      (fun w => containsSub w.data (lowerL d.data)) = true
  · rw [if_pos h]
    exact ⟨⟨fun _ => h, fun _ => rfl⟩, Or.inl rfl⟩
  · rw [if_neg h]
    exact ⟨⟨fun hm => absurd hm (by decide), fun ha => absurd ha h⟩, Or.inr rfl⟩

/-- Helper for C6: the analogous fact for `impact_of`. -/
theorem impact_of_spec (d : String) :
    (impact_of d = "high" ↔
      suggestion_impact_words.any
        (fun w => containsSub w.data (lowerL d.data)) = true) ∧
    (impact_of d = "high" ∨ impact_of d = "medium") := by
  unfold impact_of
  by_cases h : suggestion_impact_words.any
      (fun w => containsSub w.data (lowerL d.data)) = true
  · rw [if_pos h]
    exact ⟨⟨fun _ => h, fun _ => rfl⟩, Or.inl rfl⟩
  · rw [if_neg h]
    exact ⟨⟨fun hm => absurd hm (by decide), fun ha => absurd ha h⟩, Or.inr rfl⟩

/-- C1, counterexample: on the spec's concrete scenario 2 raw text — which
uses the English headers `PROBLEMS FOUND:`/`SUMMARY:` and the marker
`(line 11)` — the extractor of the source (whose regexes look for
`PROBLEMAS ENCONTRADOS:`, `(linha N)` and `RESUMO:`) finds no issue at all
and returns the default placeholder summary, not one Security issue and the
summary `Needs fixing.` as the claim states. -/
theorem c1_english_text_counterexample :
    parse_issues
      ("PROBLEMS FOUND:\n- [Security] Plain-text password (line 11)\n\nSUMMARY:\nNeeds fixing.") = [] ∧
    parse_summary
      ("PROBLEMS FOUND:\n- [Security] Plain-text password (line 11)\n\nSUMMARY:\nNeeds fixing.") = defaultSummary := by
  constructor
  · decide
  · decide

/-- C1, amended: with the localized section headers and line marker actually
matched by the source (`PROBLEMAS ENCONTRADOS:`, `(linha 11)`, `RESUMO:`),
the extraction yields exactly one issue with category `Security`, description
`Plain-text password`, line number 11 and severity `high` (the description
contains the watchlist word `password`), and the summary `Needs fixing.`. -/
theorem c1_portuguese_scenario :
    parse_issues
      ("PROBLEMAS ENCONTRADOS:\n- [Security] Plain-text password (linha 11)\n\nRESUMO:\nNeeds fixing.") =
      [{ category := "Security", description := "Plain-text password",
         line_number := some 11, severity := "high" }] ∧
    parse_summary
      ("PROBLEMAS ENCONTRADOS:\n- [Security] Plain-text password (linha 11)\n\nRESUMO:\nNeeds fixing.") =
      "Needs fixing." := by
  constructor
  · decide
  · decide

/-- C5, counterexample: on the input `"RESUMO: "` the summary section is
present with a whitespace-only body, and `_parse_summary` returns the empty
string — not the placeholder — so the extracted summary can be empty. -/
theorem c5_blank_summary_counterexample :
    parse_summary ("RESUMO: ") = "" ∧ defaultSummary ≠ "" := by
  constructor
  · decide
  · decide

/-- C5, amended: the placeholder is produced when the summary section is
absent; but when the section is present, the whitespace-collapsed body is
returned as is, so the summary is empty exactly when a present body collapses
to the empty string (rather than falling back to the placeholder). -/
theorem c5_summary_default (text : String) :
    (summaryBody text = none → parse_summary text = defaultSummary) ∧
    (parse_summary text = "" →
      ∃ b, summaryBody text = some b ∧ collapseWs (pyStrip b) = "") := by
  constructor
  · intro h
    simp [parse_summary, h]
  · intro h
    unfold parse_summary at h
    cases hb : summaryBody text with
    | none =>
      rw [hb] at h
      exact absurd h (by decide)
    | some b =>
      rw [hb] at h
      exact ⟨b, rfl, h⟩

/-- Witness for C5: a text with no summary section gets the placeholder. -/
theorem c5_summary_default_witness :
    parse_summary ("no sections at all") = defaultSummary :=
  (c5_summary_default ("no sections at all")).1 (by decide)

/-- C6, counterexample: the claim's watchlist contains `security`, but the
source's watchlist holds the Portuguese `segurança` instead: an issue whose
description contains `security` is parsed with severity `medium`, where the
claim requires `high`. -/
theorem c6_security_counterexample :
    parse_issues ("PROBLEMAS ENCONTRADOS:\n- [X] bad security here\n") =
      [{ category := "X", description := "bad security here",
         line_number := none, severity := "medium" }] ∧
    containsSub ("security").data (lowerL ("bad security here").data) = true ∧
    ("medium" : String) ≠ "high" := by
  refine ⟨by decide, by decide, by decide⟩

/-- C6, amended: severity (resp. impact) is `"high"` exactly when the
lowercased description contains a term of the source's actual watchlist —
`crítico`, `segurança`, `vulnerável`, `eval`, `sql`, `senha`, `password`,
`token`, `secret` for issues; `performance`, `segurança`, `arquitetura`,
`crítico` for suggestions — and `"medium"` otherwise; no other value is ever
produced. -/
theorem c6_severity_derivation (text : String) :
    (∀ i ∈ parse_issues text,
      (i.severity = "high" ↔
        issue_severity_words.any
          (fun w => containsSub w.data (lowerL i.description.data)) = true) ∧
      (i.severity = "high" ∨ i.severity = "medium")) ∧
    (∀ g ∈ parse_suggestions text,
      (g.impact = "high" ↔
        suggestion_impact_words.any
          (fun w => containsSub w.data (lowerL g.description.data)) = true) ∧
      (g.impact = "high" ∨ g.impact = "medium")) := by
  constructor
  · intro i hi
    unfold parse_issues at hi
    cases hb : issuesBody text with
    | none => rw [hb] at hi; exact absurd hi (List.not_mem_nil i)
    | some body =>
      rw [hb] at hi
      obtain ⟨r, _, hr⟩ := List.mem_map.mp hi
      subst hr
      exact severity_of_spec _
  · intro g hg
    unfold parse_suggestions at hg
    cases hb : suggestionsBody text with
    | none => rw [hb] at hg; exact absurd hg (List.not_mem_nil g)
    | some body =>
      rw [hb] at hg
      obtain ⟨r, _, hr⟩ := List.mem_map.mp hg
      subst hr
      exact impact_of_spec _

/-- Witness for C6: a parsed issue whose description contains `eval` is
classified, and its severity is one of the two admissible values. -/
theorem c6_severity_derivation_witness :
    ({ category := "Y", description := "uses eval", line_number := none,
       severity := "high" } : CodeIssue).severity = "high" ∨
    ({ category := "Y", description := "uses eval", line_number := none,
       severity := "high" } : CodeIssue).severity = "medium" :=
  ((c6_severity_derivation ("PROBLEMAS ENCONTRADOS:\n- [Y] uses eval\n")).1
    { category := "Y", description := "uses eval", line_number := none,
      severity := "high" } (by decide)).2

/-! ## Theorems: the relevance ranker (claims C2, C3, C4, C9) -/

/-- Membership in a stable insertion step. -/
theorem mem_insertScored {x a : Scored} {l : List Scored} :
    x ∈ insertScored a l ↔ x = a ∨ x ∈ l := by
  induction l with
  | nil => simp [insertScored]
  | cons b t ih =>
    unfold insertScored
    by_cases h : a.score < b.score
    · rw [if_pos h]
      simp only [List.mem_cons, ih]
      tauto
    · rw [if_neg h]
      simp only [List.mem_cons]

/-- Inserting into a descending-sorted list keeps it descending. -/
theorem sorted_insertScored {a : Scored} {l : List Scored}
    (h : l.Pairwise (fun u v => v.score ≤ u.score)) :
    (insertScored a l).Pairwise (fun u v => v.score ≤ u.score) := by
  induction l with
  | nil => simp [insertScored]
  | cons b t ih =>
    rw [List.pairwise_cons] at h
    obtain ⟨hb, ht⟩ := h
    unfold insertScored
    by_cases hc : a.score < b.score
    · rw [if_pos hc, List.pairwise_cons]
      refine ⟨?_, ih ht⟩
      intro x hx
      rcases mem_insertScored.mp hx with rfl | hx
      · exact Nat.le_of_lt hc
      · exact hb x hx
    · rw [if_neg hc, List.pairwise_cons]
      refine ⟨?_, List.pairwise_cons.mpr ⟨hb, ht⟩⟩
      intro x hx
      rcases List.mem_cons.mp hx with rfl | hx
      · exact Nat.le_of_not_lt hc
      · exact Nat.le_trans (hb x hx) (Nat.le_of_not_lt hc)

/-- A stable insertion step is a permutation. -/
theorem perm_insertScored (a : Scored) (l : List Scored) :
    List.Perm (insertScored a l) (a :: l) := by
  induction l with
  | nil => exact List.Perm.refl _
  | cons b t ih =>
    unfold insertScored
    by_cases hc : a.score < b.score
    · rw [if_pos hc]
      exact (List.Perm.cons b ih).trans (List.Perm.swap a b t)
    · rw [if_neg hc]

/-- Stability of one insertion step: restricted to any score class the
insertion behaves like prepending. -/
theorem filter_insertScored (n : Nat) (a : Scored) (l : List Scored) :
    (insertScored a l).filter (fun s => s.score == n) =
      ((a :: l).filter (fun s => s.score == n)) := by
  induction l with
  | nil => rfl
  | cons b t ih =>
    unfold insertScored
    by_cases hc : a.score < b.score
    · rw [if_pos hc]
      by_cases ha : (a.score == n) = true
      · by_cases hb : (b.score == n) = true
        · exfalso
          have ha' : a.score = n := beq_iff_eq.mp ha
          have hb' : b.score = n := beq_iff_eq.mp hb
          omega
        · simp [List.filter_cons, ha, hb, ih]
      · simp [List.filter_cons, ha, ih]
    · rw [if_neg hc]

/-- The sort of `find_relevant_context` is sorted descending by score. -/
theorem sorted_sortScoresDesc (l : List Scored) :
    (sortScoresDesc l).Pairwise (fun u v => v.score ≤ u.score) := by
  induction l with
  | nil => simp [sortScoresDesc]
  | cons a t ih => exact sorted_insertScored ih

/-- The sort of `find_relevant_context` is a permutation of its input. -/
theorem perm_sortScoresDesc (l : List Scored) :
    List.Perm (sortScoresDesc l) l := by
  induction l with
  | nil => exact List.Perm.refl _
  | cons a t ih =>
    exact (perm_insertScored a (sortScoresDesc t)).trans (List.Perm.cons a ih)

/-- Stability of the sort: each score class keeps its original order. -/
theorem filter_sortScoresDesc (n : Nat) (l : List Scored) :
    (sortScoresDesc l).filter (fun s => s.score == n) =
      l.filter (fun s => s.score == n) := by
  induction l with
  | nil => rfl
  | cons a t ih =>
    unfold sortScoresDesc
    rw [filter_insertScored]
    simp [List.filter_cons, ih]

/-- C3: the scored sequence inside `find_relevant_context` is sorted
descending by score, is a permutation of the corpus-order scored list, and
within every score class the original corpus order is preserved (stable
sort with corpus order breaking ties). -/
theorem c3_ranking_order (question : String) (docs : List Document) :
    (sortScoresDesc (docScores (pyLower question) docs)).Pairwise
      (fun u v => v.score ≤ u.score) ∧
    List.Perm (sortScoresDesc (docScores (pyLower question) docs))
      (docScores (pyLower question) docs) ∧
    ∀ n : Nat,
      (sortScoresDesc (docScores (pyLower question) docs)).filter
          (fun s => s.score == n) =
        (docScores (pyLower question) docs).filter (fun s => s.score == n) :=
  ⟨sorted_sortScoresDesc _, perm_sortScoresDesc _,
   fun n => filter_sortScoresDesc n _⟩

/-- Every source entry emitted by the output loop has positive score. -/
theorem score_pos_of_mem_buildOutputs {i : Nat} {l : List Scored}
    {s : SourceInfo} (h : s ∈ (buildOutputs i l).2) : 0 < s.score := by
  induction l generalizing i with
  | nil => exact absurd h (List.not_mem_nil s)
  | cons a t ih =>
    simp only [buildOutputs] at h
    by_cases hc : 0 < a.score
    · rw [if_pos hc] at h
      rcases List.mem_cons.mp h with rfl | h
      · exact hc
      · exact ih h
    · rw [if_neg hc] at h
      exact ih h

/-- When every score is zero the output loop emits nothing. -/
theorem buildOutputs_all_zero (i : Nat) (l : List Scored)
    (h : ∀ x ∈ l, x.score = 0) : buildOutputs i l = ([], []) := by
  induction l generalizing i with
  | nil => rfl
  | cons a t ih =>
    have hc : ¬ 0 < a.score := by
      have := h a (List.mem_cons_self a t)
      omega
    simp only [buildOutputs, if_neg hc]
    exact ih (i + 1) (fun x hx => h x (List.mem_cons_of_mem a hx))

/-- Appending a block of zero-score entries changes neither output list
(the loop keeps counting them, but emits nothing for them). -/
theorem buildOutputs_append_zeros (l₂ : List Scored)
    (h : ∀ x ∈ l₂, x.score = 0) :
    ∀ (i : Nat) (l₁ : List Scored),
      buildOutputs i (l₁ ++ l₂) = buildOutputs i l₁ := by
  intro i l₁
  induction l₁ generalizing i with
  | nil =>
    rw [List.nil_append, buildOutputs_all_zero i l₂ h]
    rfl
  | cons a t ih =>
    rw [List.cons_append]
    simp only [buildOutputs, ih (i + 1)]

/-- In a descending-sorted list, everything after the positive-score prefix
scores zero. -/
theorem zeros_after_positive (l : List Scored)
    (h : l.Pairwise (fun u v => v.score ≤ u.score)) :
    ∀ x ∈ l.dropWhile (fun s => 0 < s.score), x.score = 0 := by
  induction l with
  | nil => intro x hx; exact absurd hx (List.not_mem_nil x)
  | cons a t ih =>
    rw [List.pairwise_cons] at h
    obtain ⟨ha, ht⟩ := h
    intro x hx
    rw [List.dropWhile_cons] at hx
    by_cases hc : 0 < a.score
    · rw [if_pos (by simpa using hc)] at hx
      exact ih ht x hx
    · rw [if_neg (by simpa using hc)] at hx
      rcases List.mem_cons.mp hx with rfl | hx
      · omega
      · have := ha x hx
        omega

/-- C2: every source descriptor returned by `find_relevant_context` has
strictly positive score; the full scored list covers all documents, zero
scores included; when every document scores zero the returned context and
sources are empty; and the output loop computes the same context parts and
sources from just the positive-score prefix of the ranked top list (so the
zero-score documents contribute nothing to either). -/
theorem c2_exclusion_invariant (question : String) (max_docs : Nat)
    (docs : List Document) :
    (∀ s ∈ (find_relevant_context question max_docs docs).2, 0 < s.score) ∧
    (docScores (pyLower question) docs).length = docs.length ∧
    ((∀ d ∈ docs, calculate_relevance_score (pyLower question) d = 0) →
      find_relevant_context question max_docs docs = ("", [])) ∧
    buildOutputs 1
        ((sortScoresDesc (docScores (pyLower question) docs)).take max_docs) =
      buildOutputs 1
        (((sortScoresDesc (docScores (pyLower question) docs)).take
            max_docs).takeWhile (fun s => 0 < s.score)) := by
  refine ⟨?_, by simp [docScores], ?_, ?_⟩
  · intro s hs
    simp only [find_relevant_context] at hs
    by_cases hd : docs.isEmpty
    · rw [if_pos hd] at hs
      exact absurd hs (List.not_mem_nil s)
    · rw [if_neg hd] at hs
      exact score_pos_of_mem_buildOutputs hs
  · intro hz
    simp only [find_relevant_context]
    by_cases hd : docs.isEmpty
    · rw [if_pos hd]
    · rw [if_neg hd]
      have hzero : ∀ x ∈ (sortScoresDesc
          (docScores (pyLower question) docs)).take max_docs, x.score = 0 := by
        intro x hx
        have hx1 := List.mem_of_mem_take hx
        have hx2 := (perm_sortScoresDesc _).mem_iff.mp hx1
        simp only [docScores, List.mem_map] at hx2
        obtain ⟨d, hd2, rfl⟩ := hx2
        exact hz d hd2
      rw [buildOutputs_all_zero 1 _ hzero]
      rfl
  · have hsorted :
        ((sortScoresDesc (docScores (pyLower question) docs)).take
            max_docs).Pairwise (fun u v => v.score ≤ u.score) :=
      List.Pairwise.sublist (List.take_sublist max_docs _)
        (sorted_sortScoresDesc _)
    conv_lhs =>
      rw [← List.takeWhile_append_dropWhile
        (p := fun s => 0 < s.score)
        (l := (sortScoresDesc (docScores (pyLower question) docs)).take
          max_docs)]
    exact buildOutputs_append_zeros _ (zeros_after_positive _ hsorted) 1 _

/-- Witness for C2: a concrete corpus whose single source entry has positive
score. -/
theorem c2_exclusion_invariant_witness :
    0 < ({ index := 1, file := "N/A", score := 1, lines := 1,
           preview := "def " } : SourceInfo).score :=
  (c2_exclusion_invariant ("") 3
      [{ page_content := "def ", source := none, file_type := none,
         file_size := 0 }]).1
    { index := 1, file := "N/A", score := 1, lines := 1, preview := "def " }
    (by decide)

/-- The preview never exceeds 153 characters. -/
theorem get_preview_length_le (c : String) :
    (get_preview c 150).length ≤ 153 := by
  unfold get_preview
  by_cases h : c.length ≤ 150
  · rw [if_pos h]
    omega
  · rw [if_neg h]
    rw [String.length_append, String.length_mk, List.length_take]
    have : ("..." : String).length = 3 := rfl
    omega

/-- Every preview placed in a source entry obeys the 153-character bound. -/
theorem preview_bound_buildOutputs {i : Nat} {l : List Scored}
    {s : SourceInfo} (h : s ∈ (buildOutputs i l).2) :
    s.preview.length ≤ 153 := by
  induction l generalizing i with
  | nil => exact absurd h (List.not_mem_nil s)
  | cons a t ih =>
    simp only [buildOutputs] at h
    by_cases hc : 0 < a.score
    · rw [if_pos hc] at h
      rcases List.mem_cons.mp h with rfl | h
      · exact get_preview_length_le a.doc.page_content
      · exact ih h
    · rw [if_neg hc] at h
      exact ih h

/-- C4, amended: the preview equals the content when the content has at most
150 characters; otherwise it is the first 150 characters with `"..."`
appended, for a total length of exactly 153 (not at most 150 as the claim
states); every source descriptor's preview is therefore bounded by 153. -/
theorem c4_preview_bound (content : String) (question : String)
    (max_docs : Nat) (docs : List Document) :
    (content.length ≤ 150 → get_preview content 150 = content) ∧
    (150 < content.length →
      get_preview content 150 = String.mk (content.data.take 150) ++ "..." ∧
      (get_preview content 150).length = 153) ∧
    (∀ s ∈ (find_relevant_context question max_docs docs).2,
      s.preview.length ≤ 153) := by
  refine ⟨?_, ?_, ?_⟩
  · intro h
    simp [get_preview, h]
  · intro h
    have hn : ¬ content.length ≤ 150 := by omega
    refine ⟨by simp [get_preview, hn], ?_⟩
    simp only [get_preview, if_neg hn]
    rw [String.length_append, String.length_mk, List.length_take]
    have h3 : ("..." : String).length = 3 := rfl
    have hd : content.data.length = content.length := rfl
    omega
  · intro s hs
    simp only [find_relevant_context] at hs
    by_cases hd : docs.isEmpty
    · rw [if_pos hd] at hs
      exact absurd hs (List.not_mem_nil s)
    · rw [if_neg hd] at hs
      exact preview_bound_buildOutputs hs

/-- Witness for C4's amended statement at a short content. -/
theorem c4_preview_bound_witness : get_preview ("abc") 150 = "abc" :=
  (c4_preview_bound ("abc") ("") 0 []).1 (by decide)

set_option maxRecDepth 8000 in
/-- C4, counterexample: a 154-character content whose source descriptor
carries a 153-character preview, refuting the claimed 150-character bound. -/
theorem c4_preview_counterexample :
    ∃ s ∈ (find_relevant_context ("") 3
      [{ page_content := String.mk (("def ").data ++ List.replicate 150 'a'),
         source := none, file_type := none, file_size := 0 }]).2,
      150 < s.preview.length := by
  decide

/-- Replacing the metadata the scorer never reads (`file_size`,
`file_type`), used to state that ranking depends only on content and
origin. -/
def metaUpd (f : Document → Nat) (g : Document → Option String)
    (d : Document) : Document :=
  { d with file_size := f d, file_type := g d }

/-- The corresponding update on scored tuples. -/
def metaUpdScored (f : Document → Nat) (g : Document → Option String)
    (sc : Scored) : Scored :=
  { sc with doc := metaUpd f g sc.doc }

/-- Scoring the metadata-updated corpus gives the updated scored list. -/
theorem docScores_metaUpd (q : String) (f : Document → Nat)
    (g : Document → Option String) (docs : List Document) :
    docScores q (docs.map (metaUpd f g)) =
      (docScores q docs).map (metaUpdScored f g) := by
  simp only [docScores, List.map_map]
  rfl

/-- Insertion commutes with any score-preserving map. -/
theorem insertScored_map (G : Scored → Scored)
    (hG : ∀ x, (G x).score = x.score) (a : Scored) (l : List Scored) :
    insertScored (G a) (l.map G) = (insertScored a l).map G := by
  induction l with
  | nil => rfl
  | cons b t ih =>
    rw [List.map_cons]
    show insertScored (G a) (G b :: t.map G) = (insertScored a (b :: t)).map G
    unfold insertScored
    rw [hG a, hG b]
    by_cases hc : a.score < b.score
    · rw [if_pos hc, if_pos hc, List.map_cons, ih]
    · rw [if_neg hc, if_neg hc, List.map_cons, List.map_cons]

/-- The stable sort commutes with any score-preserving map. -/
theorem sortScoresDesc_map (G : Scored → Scored)
    (hG : ∀ x, (G x).score = x.score) (l : List Scored) :
    sortScoresDesc (l.map G) = (sortScoresDesc l).map G := by
  induction l with
  | nil => rfl
  | cons a t ih =>
    rw [List.map_cons]
    show insertScored (G a) (sortScoresDesc (t.map G)) = _
    rw [ih]
    exact insertScored_map G hG a (sortScoresDesc t)

/-- The output loop ignores fields a score/file/content-preserving map may
change. -/
theorem buildOutputs_map (G : Scored → Scored)
    (hs : ∀ x, (G x).score = x.score) (hf : ∀ x, (G x).file = x.file)
    (hp : ∀ x, (G x).doc.page_content = x.doc.page_content)
    (i : Nat) (l : List Scored) :
    buildOutputs i (l.map G) = buildOutputs i l := by
  induction l generalizing i with
  | nil => rfl
  | cons a t ih =>
    simp only [List.map_cons, buildOutputs, hs, hf, hp, ih (i + 1)]

/-- C9: ranking output is a pure function of the query and the documents'
content and origin: replacing every document's unused metadata (file size,
file type) changes nothing, and the per-document relevance score coincides on
any two documents agreeing on content and origin (so repeated invocations on
a fixed `(query, corpus)` are identical: the embedding is a function). -/
theorem c9_scoring_determinism (question : String) (max_docs : Nat)
    (docs : List Document) (f : Document → Nat)
    (g : Document → Option String) :
    find_relevant_context question max_docs (docs.map (metaUpd f g)) =
      find_relevant_context question max_docs docs ∧
    (∀ d₁ d₂ : Document, d₁.page_content = d₂.page_content →
      d₁.source = d₂.source →
      calculate_relevance_score question d₁ =
        calculate_relevance_score question d₂) := by
  constructor
  · unfold find_relevant_context
    have hiso : (docs.map (metaUpd f g)).isEmpty = docs.isEmpty := by
      cases docs <;> rfl
    rw [hiso]
    by_cases hd : docs.isEmpty
    · rw [if_pos hd, if_pos hd]
    · rw [if_neg hd, if_neg hd]
      dsimp only
      rw [docScores_metaUpd,
        sortScoresDesc_map (metaUpdScored f g) (fun x => rfl),
        ← List.map_take,
        buildOutputs_map (metaUpdScored f g) (fun x => rfl) (fun x => rfl)
          (fun x => rfl)]
  · intro d₁ d₂ h1 h2
    unfold calculate_relevance_score
    rw [h1, h2]

/-- Witness for C9: two concrete documents differing only in `file_size`
receive the same score. -/
theorem c9_scoring_determinism_witness :
    calculate_relevance_score ("loader")
        { page_content := "def load", source := some "loader.py",
          file_type := none, file_size := 1 } =
      calculate_relevance_score ("loader")
        { page_content := "def load", source := some "loader.py",
          file_type := none, file_size := 999 } :=
  (c9_scoring_determinism ("loader") 3 [] (fun _ => 0) (fun _ => none)).2
    { page_content := "def load", source := some "loader.py",
      file_type := none, file_size := 1 }
    { page_content := "def load", source := some "loader.py",
      file_type := none, file_size := 999 } rfl rfl

/-! ## Theorems: the pipeline controller (claims C7, C8, C10) -/

/-- C7: `ask` on a non-indexed engine returns the typed not-indexed error
dict (status `error`, fixed explanatory answer), its value does not depend on
the retriever or LLM collaborators (so neither is invoked), and both a fresh
engine and an engine just cleared by a successful `clear_index` are
non-indexed. -/
theorem c7_ask_not_indexed {R : Type} (getRetriever : Config → R)
    (invoke : R → String → Except String (List Document))
    (llm_model : String) (llm_ask : String → String → Except String String)
    (s : RAGEngine R) (question : String) (include_sources : Bool)
    (retriever_kwargs : Option Config) (h : s.is_indexed = false) :
    engineAsk getRetriever invoke llm_model llm_ask s question
        include_sources retriever_kwargs = notIndexedResult question ∧
    (notIndexedResult question).status = "error" ∧
    (notIndexedResult question).answer =
      "Sistema não está indexado. Execute setup_pipeline() primeiro." ∧
    (∀ (invoke₂ : R → String → Except String (List Document))
       (llm_ask₂ : String → String → Except String String),
      engineAsk getRetriever invoke₂ llm_model llm_ask₂ s question
          include_sources retriever_kwargs =
        engineAsk getRetriever invoke llm_model llm_ask s question
          include_sources retriever_kwargs) ∧
    (initEngine R none).is_indexed = false ∧
    (∀ s' : RAGEngine R,
      (clear_index (Except.ok ()) s').is_indexed = false) := by
  refine ⟨?_, rfl, rfl, ?_, rfl, fun s' => rfl⟩
  · simp [engineAsk, h]
  · intro invoke₂ llm_ask₂
    simp [engineAsk, h]

/-- Witness for C7: a fresh engine answers the typed error result. -/
theorem c7_ask_not_indexed_witness :
    engineAsk (fun _ => ()) (fun _ _ => Except.ok []) ("m")
        (fun _ _ => Except.ok "a") (initEngine Unit none) ("q") true none =
      notIndexedResult ("q") :=
  (c7_ask_not_indexed (fun _ => ()) (fun _ _ => Except.ok []) ("m")
      (fun _ _ => Except.ok "a") (initEngine Unit none) ("q") true none
      rfl).1

/-- C8: when the loader yields zero documents, `setup_pipeline` returns the
error statistics (status `error`, zero documents loaded) and the engine state
is returned unchanged — in particular an empty (non-indexed, retriever-less)
engine stays empty. -/
theorem c8_empty_load {R : Type}
    (addDocuments : List Document → Except String (List String))
    (getRetriever : Config → Except String R) (s : RAGEngine R) :
    setup_pipeline (Except.ok []) addDocuments getRetriever s =
      (s, errStats ("Nenhum documento foi carregado")) ∧
    (errStats ("Nenhum documento foi carregado")).status = "error" ∧
    (errStats ("Nenhum documento foi carregado")).documents_loaded = 0 ∧
    (s.is_indexed = false →
      (setup_pipeline (Except.ok []) addDocuments getRetriever s).1.is_indexed
          = false ∧
      (setup_pipeline (Except.ok []) addDocuments getRetriever s).1.retriever
          = s.retriever) := by
  refine ⟨rfl, rfl, rfl, ?_⟩
  intro h
  exact ⟨h, rfl⟩

/-- Witness for C8: the concrete empty-load run on a fresh engine. -/
theorem c8_empty_load_witness :
    (setup_pipeline (Except.ok []) (fun _ => Except.ok [])
        (fun _ => Except.ok ()) (initEngine Unit none)).1.is_indexed = false :=
  ((c8_empty_load (fun _ => Except.ok []) (fun _ => Except.ok ())
      (initEngine Unit none)).2.2.2 rfl).1

/-- Defining equation of `cfgGet` on a cons cell. -/
theorem cfgGet_cons (k k' : String) (v : ConfigVal) (t : Config) :
    cfgGet k ((k', v) :: t) = if k' = k then some v else cfgGet k t := rfl

/-- Appending on the right only matters for keys the left list lacks. -/
theorem cfgGet_append (k : String) (l₁ l₂ : Config) :
    cfgGet k (l₁ ++ l₂) =
      match cfgGet k l₁ with
      | some v => some v
      | none => cfgGet k l₂ := by
  induction l₁ with
  | nil => rfl
  | cons a t ih =>
    obtain ⟨k', v⟩ := a
    rw [List.cons_append, cfgGet_cons, cfgGet_cons]
    by_cases h : k' = k
    · rw [if_pos h, if_pos h]
    · rw [if_neg h, if_neg h, ih]

/-- Lookup in the key-preserving value map of `dictUpdate`. -/
theorem cfgGet_mapSnd (k : String) (u b : Config) :
    cfgGet k (b.map (fun kv => (kv.1, (cfgGet kv.1 u).getD kv.2))) =
      (cfgGet k b).map (fun v => (cfgGet k u).getD v) := by
  induction b with
  | nil => rfl
  | cons a t ih =>
    obtain ⟨k', v⟩ := a
    rw [List.map_cons]
    rw [cfgGet_cons, cfgGet_cons]
    by_cases h : k' = k
    · rw [if_pos h, if_pos h]
      subst h
      rfl
    · rw [if_neg h, if_neg h]
      exact ih

/-- Filtering away only entries of other keys does not change a lookup. -/
theorem cfgGet_filter_keep (k : String) (u : Config)
    (p : String × ConfigVal → Bool) (hp : ∀ v, p (k, v) = true) :
    cfgGet k (u.filter p) = cfgGet k u := by
  induction u with
  | nil => rfl
  | cons a t ih =>
    obtain ⟨k', v⟩ := a
    rw [List.filter_cons]
    by_cases h : k' = k
    · subst h
      rw [if_pos (hp v), cfgGet_cons, cfgGet_cons, if_pos rfl, if_pos rfl]
    · by_cases hpa : p (k', v) = true
      · rw [if_pos hpa, cfgGet_cons, cfgGet_cons, if_neg h, if_neg h]
        exact ih
      · rw [if_neg hpa, cfgGet_cons, if_neg h]
        exact ih

/-- A key supplied to `dict.update` afterwards holds the supplied value. -/
theorem cfgGet_dictUpdate_supplied {k : String} {v : ConfigVal}
    (b : Config) {u : Config} (h : cfgGet k u = some v) :
    cfgGet k (dictUpdate b u) = some v := by
  unfold dictUpdate
  rw [cfgGet_append, cfgGet_mapSnd]
  cases hb : cfgGet k b with
  | some w =>
    show some ((cfgGet k u).getD w) = some v
    rw [h]
    rfl
  | none =>
    show cfgGet k (u.filter _) = some v
    rw [cfgGet_filter_keep k u _ (fun w => by rw [hb]; rfl)]
    exact h

/-- A key not supplied to `dict.update` keeps its previous value. -/
theorem cfgGet_dictUpdate_not_supplied {k : String} (b : Config)
    {u : Config} (h : cfgGet k u = none) :
    cfgGet k (dictUpdate b u) = cfgGet k b := by
  unfold dictUpdate
  rw [cfgGet_append, cfgGet_mapSnd]
  cases hb : cfgGet k b with
  | some w =>
    show some ((cfgGet k u).getD w) = some w
    rw [h]
    rfl
  | none =>
    show cfgGet k (u.filter _) = none
    rw [cfgGet_filter_keep k u _ (fun w => by rw [hb]; rfl)]
    exact h

/-- The merged configuration stored by `update_retriever_config`, in either
branch. -/
theorem update_retriever_config_cfg {R : Type} (getRetriever : Config → R)
    (s : RAGEngine R) (kwargs : Config) :
    (update_retriever_config getRetriever s kwargs).retriever_config =
      dictUpdate s.retriever_config kwargs := by
  unfold update_retriever_config
  by_cases h : s.is_indexed
  · rw [if_pos h]
  · rw [if_neg h]

/-- C10: `update_retriever_config` merges the supplied settings into the
stored configuration — supplied keys take the supplied value, unsupplied keys
keep their previous value — and on a non-indexed engine it leaves the
retriever and the indexed flag untouched. -/
theorem c10_reconfigure_frame {R : Type} (getRetriever : Config → R)
    (s : RAGEngine R) (kwargs : Config) :
    (∀ k v, cfgGet k kwargs = some v →
      cfgGet k (update_retriever_config getRetriever s kwargs).retriever_config
        = some v) ∧
    (∀ k, cfgGet k kwargs = none →
      cfgGet k (update_retriever_config getRetriever s kwargs).retriever_config
        = cfgGet k s.retriever_config) ∧
    (s.is_indexed = false →
      (update_retriever_config getRetriever s kwargs).retriever = s.retriever ∧
      (update_retriever_config getRetriever s kwargs).is_indexed =
        s.is_indexed) := by
  refine ⟨?_, ?_, ?_⟩
  · intro k v h
    rw [update_retriever_config_cfg]
    exact cfgGet_dictUpdate_supplied s.retriever_config h
  · intro k h
    rw [update_retriever_config_cfg]
    exact cfgGet_dictUpdate_not_supplied s.retriever_config h
  · intro h
    unfold update_retriever_config
    rw [h]
    exact ⟨rfl, rfl⟩

/-- Witness for C10: updating `k` on a fresh engine stores the new value and
keeps `search_type`. -/
theorem c10_reconfigure_frame_witness :
    cfgGet ("k") (update_retriever_config (fun _ => ())
        (initEngine Unit none) [("k", ConfigVal.int 8)]).retriever_config =
      some (ConfigVal.int 8) :=
  (c10_reconfigure_frame (fun _ => ()) (initEngine Unit none)
      [("k", ConfigVal.int 8)]).1 ("k") (ConfigVal.int 8) (by decide)

end RagStudies
